import Mathlib

/-!
# NFL alt-prop qualification engine: a shallow embedding

This file embeds the core logic of `src/main.py` (the prop qualification
engine: odds collection filter, name matching, qualification check,
aggregation/deduplication, and the published-state update) as executable
Lean definitions, and proves the specification claims about them.

Numeric values (thresholds, stat values, prices) are modelled as rationals,
matching the spec's "compared as real numbers" semantics; Python's `round`
is modelled as round-half-to-even at one decimal place.
-/

/-! ## String helpers mirroring the Python string operations used -/

/-- Splits on runs of spaces, dropping empty tokens: Python `s.split()`
(for the space-separated names that occur here). -/
def splitWsAux : List Char → List Char → List String
  | [], acc => if acc.isEmpty then [] else [String.mk acc.reverse]
  | c :: cs, acc =>
    if c = ' ' then
      (if acc.isEmpty then splitWsAux cs [] else String.mk acc.reverse :: splitWsAux cs [])
    else splitWsAux cs (c :: acc)

/-- Python `s.split()` on spaces. -/
def pySplit (s : String) : List String := splitWsAux s.data []

/-- Python `s.split()[-1]`: the last whitespace-separated token
(`main.py` line 185, `last_name = player_full_name.split()[-1]`). -/
def lastToken (s : String) : String := ((pySplit s).getLast?).getD ""

/-- Python `s.lower()` (ASCII). -/
def toLowerStr (s : String) : String := String.mk (s.data.map Char.toLower)

/-- Substring containment: Python `needle in hay` / `Series.str.contains`. -/
def strContains (hay needle : String) : Bool :=
  (List.range (hay.data.length + 1)).any (fun i => needle.data.isPrefixOf (hay.data.drop i))

/-- Python `s.replace('_', ' ')` for the single-character case used at
`main.py` line 223. -/
def replaceUnderscores (s : String) : String :=
  String.mk (s.data.map (fun c => if c = '_' then ' ' else c))

/-- Helper for `pyTitle`: the flag records whether the previous character
was alphabetic. -/
def pyTitleAux : List Char → Bool → List Char
  | [], _ => []
  | c :: cs, prevAlpha =>
    (if c.isAlpha then (if prevAlpha then c.toLower else c.toUpper) else c) ::
      pyTitleAux cs c.isAlpha

/-- Python `s.title()` (ASCII): uppercase each letter that does not follow a
letter, lowercase the rest. -/
def pyTitle (s : String) : String := String.mk (pyTitleAux s.data false)

/-- Python `round` to the nearest integer, ties to even (banker's rounding),
on exact rationals. -/
def pyRoundHalfEven (q : ℚ) : ℤ :=
  if q - (⌊q⌋ : ℚ) < 1/2 then ⌊q⌋
  else if (1 : ℚ)/2 < q - (⌊q⌋ : ℚ) then ⌊q⌋ + 1
  else if ⌊q⌋ % 2 = 0 then ⌊q⌋ else ⌊q⌋ + 1

/-- Python `round(q, 1)`: round to one decimal place, ties to even
(`main.py` line 228). -/
def pyRound1 (q : ℚ) : ℚ := (pyRoundHalfEven (q * 10) : ℚ) / 10

/-! ## Data model -/

/-- One row of the `weekly_stats` table built at `main.py` lines 157-170:
one (season, week, player) group with the summed stat columns.  A stat
column a player contributes nothing to holds 0 (pandas sums missing values
of the concatenated frames as 0). -/
structure WeeklyRow where
  season : ℤ
  week : ℤ
  player : String
  passing_yards : ℚ := 0
  passing_tds : ℚ := 0
  rushing_yards : ℚ := 0
  rush_attempts : ℚ := 0
  receiving_yards : ℚ := 0
  receptions : ℚ := 0
deriving DecidableEq, Repr

/-- Column lookup `player_games[stat_col]` on a row. -/
def statOf (r : WeeklyRow) (col : String) : ℚ :=
  if col = "passing_yards" then r.passing_yards
  else if col = "passing_tds" then r.passing_tds
  else if col = "rushing_yards" then r.rushing_yards
  else if col = "rush_attempts" then r.rush_attempts
  else if col = "receiving_yards" then r.receiving_yards
  else if col = "receptions" then r.receptions
  else 0

/-- `current_week = weekly_stats["week"].max()` (`main.py` line 171). -/
def currentWeek (ws : List WeeklyRow) : ℤ :=
  (ws.map (fun r => r.week)).foldr max 0

/-- One outcome of a bookmaker market as returned by the odds API
(`main.py` lines 135-139): `description` is the player display name,
`name` the side (`"Over"`/`"Under"`), `point` the line, `price` the
American odds (possibly absent). -/
structure Outcome where
  description : String
  name : String
  point : ℚ
  price : Option ℚ
deriving DecidableEq, Repr

/-- One market of a bookmaker (`market["key"]`, `market["outcomes"]`). -/
structure MarketData where
  key : String
  outcomes : List Outcome
deriving DecidableEq, Repr

/-- One bookmaker entry of an event's odds payload. -/
structure BookmakerData where
  markets : List MarketData
deriving DecidableEq, Repr

/-- One event together with its odds payload; `game` is the
`"{away} @ {home}"` matchup label, `game_time` the formatted kickoff. -/
structure EventOdds where
  game : String
  game_time : String
  bookmakers : List BookmakerData
deriving DecidableEq, Repr

/-- One entry of the `props` list built at `main.py` lines 142-150. -/
structure PropEntry where
  game : String
  game_time : String
  market : String
  player : String
  side : String
  line : ℚ
  odds : ℚ
deriving DecidableEq, Repr

/-- One entry of the `qualifying` list built at `main.py` lines 220-230. -/
structure QualRow where
  game : String
  game_time : String
  market : String
  player : String
  side : String
  line : ℚ
  odds : ℚ
  season_avg : ℚ
  weekly_values : List ℚ
deriving DecidableEq, Repr

/-! ## Odds collection (`main.py` lines 133-150) -/

/-- Turns one API outcome into a `PropEntry` when its price is present and
within the band: `if odds is not None and -600 <= odds <= -150`
(`main.py` line 141). -/
def outcomeProps (g gt mkey : String) (o : Outcome) : Option PropEntry :=
  match o.price with
  | none => none
  | some odds =>
    if -600 ≤ odds ∧ odds ≤ -150 then
      some { game := g, game_time := gt, market := mkey, player := o.description,
             side := o.name, line := o.point, odds := odds }
    else none

/-- The triple loop over bookmakers, markets and outcomes
(`main.py` lines 133-150). -/
def collectProps (evs : List EventOdds) : List PropEntry :=
  evs.flatMap (fun ev =>
    ev.bookmakers.flatMap (fun b =>
      b.markets.flatMap (fun m =>
        m.outcomes.filterMap (outcomeProps ev.game ev.game_time m.key))))

/-! ## Name matching and qualification (`main.py` lines 184-209) -/

/-- The source's name resolution test: the display name's last token is
contained, case-insensitively, in the canonical stats name
(`weekly_stats["player"].str.contains(last_name, case=False)`,
`main.py` line 188). -/
def nameMatches (display canonical : String) : Bool :=
  strContains (toLowerStr canonical) (toLowerStr (lastToken display))

/-- The first canonical identity matching a display name, in iteration
order. -/
def codeFirstMatch (display : String) (canon : List String) : Option String :=
  canon.find? (fun c => nameMatches display c)

/-- The `player_games` filter of `main.py` lines 186-189: season 2025 rows
whose player name contains the display name's last token. -/
def playerGames (ws : List WeeklyRow) (display : String) : List WeeklyRow :=
  ws.filter (fun r => decide (r.season = 2025) && nameMatches display r.player)

/-- The per-value test of the loop at `main.py` lines 195-205 for the
`"Over"` side: a 20% cushion for yards markets, 30% for
attempts/receptions markets, none otherwise. -/
def overCushion (market : String) (line v : ℚ) : Bool :=
  if strContains market "yds" then decide (line * (6/5) < v)
  else if strContains market "attempts" || strContains market "receptions" then
    decide (line * (13/10) < v)
  else decide (line < v)

/-- The whole loop of `main.py` lines 195-207: every value must pass the
cushioned test, and any non-`"Over"` side fails at the first value. -/
def checkVals (vals : List ℚ) (line : ℚ) (side market : String) : Bool :=
  vals.all (fun v => if side = "Over" then overCushion market line v else false)

/-- `qualifies_strong` (`main.py` lines 184-209): filter the player's 2025
rows by last-name containment, fail when none or fewer than
`current_week - 1` of them exist, then test every value of the stat
column. -/
def qualifies_strong (ws : List WeeklyRow) (player_full_name stat_col : String)
    (line : ℚ) (side market : String) : Bool × List ℚ :=
  if playerGames ws player_full_name = [] ∨
      ((playerGames ws player_full_name).length : ℤ) < currentWeek ws - 1 then
    (false, [])
  else
    (checkVals ((playerGames ws player_full_name).map (fun r => statOf r stat_col))
        line side market,
      (playerGames ws player_full_name).map (fun r => statOf r stat_col))

/-! ## Aggregation (`main.py` lines 173-236) -/

/-- The `market_to_stat` dictionary (`main.py` lines 174-181), as
`dict.get`. -/
def market_to_stat (m : String) : Option String :=
  if m = "player_pass_yds_alternate" then some "passing_yards"
  else if m = "player_pass_tds_alternate" then some "passing_tds"
  else if m = "player_rush_yds_alternate" then some "rushing_yards"
  else if m = "player_rush_attempts_alternate" then some "rush_attempts"
  else if m = "player_receptions_alternate" then some "receptions"
  else if m = "player_reception_yds_alternate" then some "receiving_yards"
  else none

/-- The `qualifying` dictionary built at `main.py` lines 219-230 from a
prop entry and its supporting values. -/
def mkQualRow (p : PropEntry) (vals : List ℚ) : QualRow :=
  { game := p.game, game_time := p.game_time,
    market := pyTitle (replaceUnderscores p.market),
    player := p.player, side := p.side, line := p.line, odds := p.odds,
    season_avg := pyRound1 (if vals.isEmpty then 0 else vals.sum / (vals.length : ℚ)),
    weekly_values := vals }

/-- One iteration of the qualification loop of `main.py` lines 212-230:
skip unknown markets, keep a prop entry only when `qualifies_strong`
accepts it. -/
def qualLine (ws : List WeeklyRow) (p : PropEntry) : Option QualRow :=
  match market_to_stat p.market with
  | none => none
  | some stat_col =>
    if (qualifies_strong ws p.player stat_col p.line p.side p.market).1 then
      some (mkQualRow p (qualifies_strong ws p.player stat_col p.line p.side p.market).2)
    else none

/-- The qualification loop of `main.py` lines 212-230. -/
def buildQualifying (ws : List WeeklyRow) (props : List PropEntry) : List QualRow :=
  props.filterMap (qualLine ws)

/-- The deduplication key of `df.drop_duplicates(subset=["player", "market",
"line", "side"])` (`main.py` line 235). -/
def dedupKey (q : QualRow) : String × String × ℚ × String :=
  (q.player, q.market, q.line, q.side)

/-- `drop_duplicates` keeping the first occurrence of each key. -/
def dropDupAux : List (String × String × ℚ × String) → List QualRow → List QualRow
  | _, [] => []
  | seen, q :: qs =>
    if dedupKey q ∈ seen then dropDupAux seen qs
    else q :: dropDupAux (dedupKey q :: seen) qs

/-- The full engine on already-fetched inputs: collect the in-band props,
qualify them against the weekly stats, and deduplicate
(`main.py` lines 119-236). -/
def runEngine (evs : List EventOdds) (ws : List WeeklyRow) : List QualRow :=
  dropDupAux [] (buildQualifying ws (collectProps evs))

/-! ## Published state (`main.py` lines 22-27, 92-99, 239-261) -/

/-- The `latest_props_data` snapshot, restricted to the fields the claims
concern; `last_updated` is an abstract timestamp. -/
structure PublishedState where
  last_updated : ℤ
  props : List QualRow
  error : Option String
deriving DecidableEq, Repr

/-- The three terminal outcomes of one `fetch_nfl_props` run: the early
no-games return (`main.py` lines 91-99), a successful pipeline run
(lines 239-253), or an exception caught at lines 257-261. -/
inductive RunOutcome where
  | noGames
  | ok (evs : List EventOdds) (ws : List WeeklyRow)
  | failure (msg : String)
deriving Repr

/-- How one run rewrites the published snapshot.  On success and on the
no-games path the whole snapshot is replaced; on failure only `error` and
`last_updated` are overwritten, the rest of the previous snapshot is kept
(`main.py` lines 259-261). -/
def fetchUpdate (prev : PublishedState) (o : RunOutcome) (now : ℤ) : PublishedState :=
  match o with
  | RunOutcome.noGames =>
      { last_updated := now, props := [],
        error := some "No relevant NFL games found" }
  | RunOutcome.ok evs ws =>
      { last_updated := now, props := runEngine evs ws, error := none }
  | RunOutcome.failure msg =>
      { prev with last_updated := now, error := some msg }

/-- The five-pattern Name Matcher as the spec describes it (§4.1), for
comparison with the source's substring-based resolution:
1. `{first-initial}.{last-name}`  2. `{first-initial} {last-name}`
3. `{first-name} {last-name}`  4. case-insensitive full display name
5. `{first-two-letters}.{last-name}`; first success wins. -/
def specFiveRuleMatch (display : String) (canon : List String) : Option String :=
  let firstName := ((pySplit display).head?).getD ""
  let last := lastToken display
  let p1 := String.mk (firstName.data.take 1) ++ "." ++ last
  let p2 := String.mk (firstName.data.take 1) ++ " " ++ last
  let p3 := firstName ++ " " ++ last
  let p5 := String.mk (firstName.data.take 2) ++ "." ++ last
  ((((canon.find? (fun c => c == p1)).orElse
      (fun _ => canon.find? (fun c => c == p2))).orElse
      (fun _ => canon.find? (fun c => c == p3))).orElse
      (fun _ => canon.find? (fun c => toLowerStr c == toLowerStr display))).orElse
      (fun _ => canon.find? (fun c => c == p5))

/-! ## Concrete scenario data -/

/-- Scenario B of the spec: Garrett Wilson's four recorded 2025 weeks with
receiving yards 80, 95, 60, 110 (ascending week order, as the grouped
stats table is sorted). -/
def wilsonStats : List WeeklyRow :=
  [ { season := 2025, week := 1, player := "G.Wilson", receiving_yards := 80, receptions := 6 },
    { season := 2025, week := 2, player := "G.Wilson", receiving_yards := 95, receptions := 7 },
    { season := 2025, week := 3, player := "G.Wilson", receiving_yards := 60, receptions := 5 },
    { season := 2025, week := 4, player := "G.Wilson", receiving_yards := 110, receptions := 8 } ]

/-- One bookmaker quoting Garrett Wilson Over 20.5 receiving yards at the
given price. -/
def c6quote (price : ℚ) : BookmakerData :=
  { markets :=
      [ { key := "player_reception_yds_alternate",
          outcomes :=
            [ { description := "Garrett Wilson", name := "Over", point := 41/2,
                price := some price } ] } ] }

/-- Scenario E of the spec: one event where two bookmakers quote the
identical line at -180 and -165. -/
def c6evs : List EventOdds :=
  [ { game := "New England Patriots @ New York Jets",
      game_time := "Sun 10/12 01:00PM ET",
      bookmakers := [c6quote (-180), c6quote (-165)] } ]

/-- The prop entry the collection loop produces for one `c6quote`. -/
def c6prop (price : ℚ) : PropEntry :=
  { game := "New England Patriots @ New York Jets",
    game_time := "Sun 10/12 01:00PM ET",
    market := "player_reception_yds_alternate",
    player := "Garrett Wilson", side := "Over", line := 41/2, odds := price }

/-- Two weeks of negative receiving-yard totals: enough history when the
table's maximum week is 2. -/
def doeStats : List WeeklyRow :=
  [ { season := 2025, week := 1, player := "J.Doe", receiving_yards := -11 },
    { season := 2025, week := 2, player := "J.Doe", receiving_yards := -11 } ]

/-- One bookmaker quoting John Doe Over -10 receiving yards at -200: a
line the cushioned test accepts although the values sit below it. -/
def doeEvs : List EventOdds :=
  [ { game := "A @ B", game_time := "T",
      bookmakers :=
        [ { markets :=
              [ { key := "player_reception_yds_alternate",
                  outcomes :=
                    [ { description := "John Doe", name := "Over", point := -10,
                        price := some (-200) } ] } ] } ] } ]

/-- The prop entry the collection loop produces from `doeEvs`. -/
def doeProp : PropEntry :=
  { game := "A @ B", game_time := "T",
    market := "player_reception_yds_alternate",
    player := "John Doe", side := "Over", line := -10, odds := -200 }

/-- Three recorded weeks of three passing touchdowns each; the table's
maximum week is 3, so the history gate asks for only 2 rows. -/
def mahomesStats : List WeeklyRow :=
  [ { season := 2025, week := 1, player := "P.Mahomes", passing_tds := 3 },
    { season := 2025, week := 2, player := "P.Mahomes", passing_tds := 3 },
    { season := 2025, week := 3, player := "P.Mahomes", passing_tds := 3 } ]

/-- A stats table whose only canonical identity is `"D.Wilson"`. -/
def dWilsonStats : List WeeklyRow :=
  [ { season := 2025, week := 1, player := "D.Wilson", receiving_yards := 50 } ]

/-- An arbitrary concrete output row, standing for the props of a previous
successful run. -/
def staleRow : QualRow :=
  { game := "A @ B", game_time := "T", market := "Player Receptions Alternate",
    player := "X Y", side := "Over", line := 3, odds := -200,
    season_avg := 5, weekly_values := [5, 5, 5, 5] }

/-- A published snapshot holding the previous run's props and no error. -/
def prevSnapshot : PublishedState :=
  { last_updated := 0, props := [staleRow], error := none }

/-! ## Derived cushion views of the per-value test -/

/-- The cushion factor the loop at `main.py` lines 196-205 applies, read
off the raw market key. -/
def cushionOfRaw (m : String) : ℚ :=
  if strContains m "yds" then 6/5
  else if strContains m "attempts" || strContains m "receptions" then 13/10
  else 1

/-- The same cushion factor read off the title-cased market string stored
in the output rows. -/
def cushionOfTitled (m : String) : ℚ :=
  if strContains m "Yds" then 6/5
  else if strContains m "Attempts" || strContains m "Receptions" then 13/10
  else 1

theorem overCushion_eq (m : String) (line v : ℚ) :
    overCushion m line v = decide (line * cushionOfRaw m < v) := by
  unfold overCushion cushionOfRaw
  split_ifs <;> simp [mul_one]

theorem cushion_titled_eq_raw {m c : String} (h : market_to_stat m = some c) :
    cushionOfTitled (pyTitle (replaceUnderscores m)) = cushionOfRaw m := by
  unfold market_to_stat at h
  split_ifs at h with h1 h2 h3 h4 h5 h6
  · subst h1; rfl
  · subst h2; rfl
  · subst h3; rfl
  · subst h4; rfl
  · subst h5; rfl
  · subst h6; rfl

theorem one_le_cushionOfRaw (m : String) : 1 ≤ cushionOfRaw m := by
  unfold cushionOfRaw
  split_ifs <;> norm_num

/-! ## Structural lemmas about deduplication and qualification -/

theorem dropDupAux_sublist (seen : List (String × String × ℚ × String))
    (l : List QualRow) : (dropDupAux seen l).Sublist l := by
  induction l generalizing seen with
  | nil => simp [dropDupAux]
  | cons q qs ih =>
    unfold dropDupAux
    split
    · exact (ih seen).cons q
    · exact (ih _).cons₂ q

theorem dedupKey_not_mem_seen {seen : List (String × String × ℚ × String)}
    {l : List QualRow} {q : QualRow} (h : q ∈ dropDupAux seen l) :
    dedupKey q ∉ seen := by
  induction l generalizing seen with
  | nil => simp [dropDupAux] at h
  | cons a as ih =>
    unfold dropDupAux at h
    split at h
    · exact ih h
    · rcases List.mem_cons.mp h with heq | hmem
      · subst heq; assumption
      · exact fun hs => (ih hmem) (List.mem_cons_of_mem _ hs)

theorem dropDupAux_pairwise (seen : List (String × String × ℚ × String))
    (l : List QualRow) :
    (dropDupAux seen l).Pairwise (fun a b => dedupKey a ≠ dedupKey b) := by
  induction l generalizing seen with
  | nil => simp [dropDupAux]
  | cons a as ih =>
    unfold dropDupAux
    split
    · exact ih seen
    · refine List.Pairwise.cons ?_ (ih _)
      intro b hb hab
      exact (dedupKey_not_mem_seen hb) (by rw [← hab]; exact List.mem_cons_self _ _)

theorem dropDupAux_covers (seen : List (String × String × ℚ × String))
    (l : List QualRow) :
    ∀ q ∈ l, dedupKey q ∈ seen ∨
      ∃ q2 ∈ dropDupAux seen l, dedupKey q2 = dedupKey q := by
  induction l generalizing seen with
  | nil => simp
  | cons a as ih =>
    intro q hq
    unfold dropDupAux
    rcases List.mem_cons.mp hq with heq | hmem
    · subst heq
      split
      · left; assumption
      · right; exact ⟨q, List.mem_cons_self _ _, rfl⟩
    · split
      · exact ih seen q hmem
      · rcases ih (dedupKey a :: seen) q hmem with hin | ⟨q2, hq2, hk⟩
        · rcases List.mem_cons.mp hin with heq | hseen
          · right; exact ⟨a, List.mem_cons_self _ _, heq.symm⟩
          · left; exact hseen
        · right; exact ⟨q2, List.mem_cons_of_mem _ hq2, hk⟩

theorem qualifies_fst_true {ws : List WeeklyRow} {player c : String} {line : ℚ}
    {side m : String}
    (h : (qualifies_strong ws player c line side m).1 = true) :
    playerGames ws player ≠ [] ∧ side = "Over" ∧
      (qualifies_strong ws player c line side m).2 =
        (playerGames ws player).map (fun r => statOf r c) ∧
      ∀ v ∈ (playerGames ws player).map (fun r => statOf r c),
        overCushion m line v = true := by
  unfold qualifies_strong at h ⊢
  by_cases hgate : playerGames ws player = [] ∨
      ((playerGames ws player).length : ℤ) < currentWeek ws - 1
  · rw [if_pos hgate] at h; simp at h
  · rw [if_neg hgate] at h ⊢
    push_neg at hgate
    obtain ⟨hne, _⟩ := hgate
    unfold checkVals at h
    rw [List.all_eq_true] at h
    have hside : side = "Over" := by
      by_contra hs
      obtain ⟨r, hr⟩ := List.exists_mem_of_ne_nil _ hne
      have hfalse := h (statOf r c) (List.mem_map_of_mem _ hr)
      rw [if_neg hs] at hfalse
      exact Bool.false_ne_true hfalse
    refine ⟨hne, hside, rfl, ?_⟩
    intro v hv
    have ht := h v hv
    rwa [if_pos hside] at ht

theorem qualLine_none {ws : List WeeklyRow} {p : PropEntry}
    (h : market_to_stat p.market = none) : qualLine ws p = none := by
  unfold qualLine
  rw [h]

theorem qualLine_some {ws : List WeeklyRow} {p : PropEntry} {c : String}
    (h : market_to_stat p.market = some c) :
    qualLine ws p =
      if (qualifies_strong ws p.player c p.line p.side p.market).1 then
        some (mkQualRow p (qualifies_strong ws p.player c p.line p.side p.market).2)
      else none := by
  unfold qualLine
  rw [h]

theorem mem_buildQualifying {ws : List WeeklyRow} {props : List PropEntry}
    {q : QualRow} (h : q ∈ buildQualifying ws props) :
    ∃ p ∈ props, ∃ c, market_to_stat p.market = some c ∧
      (qualifies_strong ws p.player c p.line p.side p.market).1 = true ∧
      q = mkQualRow p (qualifies_strong ws p.player c p.line p.side p.market).2 := by
  unfold buildQualifying at h
  rw [List.mem_filterMap] at h
  obtain ⟨p, hp, hfp⟩ := h
  refine ⟨p, hp, ?_⟩
  cases hms : market_to_stat p.market with
  | none => rw [qualLine_none hms] at hfp; simp at hfp
  | some c =>
    rw [qualLine_some hms] at hfp
    split at hfp
    · injection hfp with he
      exact ⟨c, rfl, by assumption, he.symm⟩
    · simp at hfp

theorem mem_runEngine {evs : List EventOdds} {ws : List WeeklyRow} {q : QualRow}
    (h : q ∈ runEngine evs ws) :
    ∃ p ∈ collectProps evs, ∃ c, market_to_stat p.market = some c ∧
      (qualifies_strong ws p.player c p.line p.side p.market).1 = true ∧
      q = mkQualRow p (qualifies_strong ws p.player c p.line p.side p.market).2 := by
  unfold runEngine at h
  exact mem_buildQualifying ((dropDupAux_sublist _ _).subset h)

theorem mem_collectProps_odds {evs : List EventOdds} {p : PropEntry}
    (h : p ∈ collectProps evs) : -600 ≤ p.odds ∧ p.odds ≤ -150 := by
  unfold collectProps at h
  simp only [List.mem_flatMap, List.mem_filterMap] at h
  obtain ⟨ev, _, b, _, m, _, o, _, ho⟩ := h
  unfold outcomeProps at ho
  cases hp : o.price with
  | none => rw [hp] at ho; simp at ho
  | some odds =>
    rw [hp] at ho
    split at ho
    · injection ho
    · split at ho
      next hcond => injection ho with he; subst he; exact hcond
      next => injection ho

/-! ## Evaluation of the engine on the concrete scenarios -/

theorem outcomeProps_eval (g gt k d n : String) (pt pr : ℚ)
    (h : -600 ≤ pr ∧ pr ≤ -150) :
    outcomeProps g gt k
        { description := d, name := n, point := pt, price := some pr } =
      some { game := g, game_time := gt, market := k, player := d,
             side := n, line := pt, odds := pr } := by
  unfold outcomeProps
  dsimp only
  rw [if_pos h]

theorem collect_c6 : collectProps c6evs = [c6prop (-180), c6prop (-165)] := by
  have h180 := outcomeProps_eval "New England Patriots @ New York Jets"
    "Sun 10/12 01:00PM ET" "player_reception_yds_alternate" "Garrett Wilson" "Over"
    (41/2) (-180) (by norm_num)
  have h165 := outcomeProps_eval "New England Patriots @ New York Jets"
    "Sun 10/12 01:00PM ET" "player_reception_yds_alternate" "Garrett Wilson" "Over"
    (41/2) (-165) (by norm_num)
  simp [collectProps, c6evs, c6quote, h180, h165, c6prop]

theorem qualifies_c6 : qualifies_strong wilsonStats "Garrett Wilson"
    "receiving_yards" (41/2) "Over" "player_reception_yds_alternate" =
    (true, [80, 95, 60, 110]) := by
  unfold qualifies_strong
  rw [if_neg (by decide : ¬(playerGames wilsonStats "Garrett Wilson" = [] ∨
      ((playerGames wilsonStats "Garrett Wilson").length : ℤ) < currentWeek wilsonStats - 1))]
  rw [show (playerGames wilsonStats "Garrett Wilson").map (fun r => statOf r "receiving_yards")
      = [80, 95, 60, 110] from by decide]
  have hy : strContains "player_reception_yds_alternate" "yds" = true := rfl
  norm_num [checkVals, overCushion, hy]

theorem qualLine_c6 (pr : ℚ) :
    qualLine wilsonStats (c6prop pr) = some (mkQualRow (c6prop pr) [80, 95, 60, 110]) := by
  rw [qualLine_some (show market_to_stat (c6prop pr).market = some "receiving_yards" from rfl)]
  dsimp only [c6prop]
  rw [qualifies_c6]
  simp

theorem runEngine_c6 :
    runEngine c6evs wilsonStats = [mkQualRow (c6prop (-180)) [80, 95, 60, 110]] := by
  unfold runEngine buildQualifying
  rw [collect_c6]
  simp only [List.filterMap_cons, List.filterMap_nil, qualLine_c6]
  simp [dropDupAux, dedupKey, mkQualRow, c6prop]

theorem collect_doe : collectProps doeEvs = [doeProp] := by
  have h200 := outcomeProps_eval "A @ B" "T" "player_reception_yds_alternate"
    "John Doe" "Over" (-10) (-200) (by norm_num)
  simp [collectProps, doeEvs, h200, doeProp]

theorem qualifies_doe : qualifies_strong doeStats "John Doe"
    "receiving_yards" (-10) "Over" "player_reception_yds_alternate" =
    (true, [-11, -11]) := by
  unfold qualifies_strong
  rw [if_neg (by decide : ¬(playerGames doeStats "John Doe" = [] ∨
      ((playerGames doeStats "John Doe").length : ℤ) < currentWeek doeStats - 1))]
  rw [show (playerGames doeStats "John Doe").map (fun r => statOf r "receiving_yards")
      = [-11, -11] from by decide]
  have hy : strContains "player_reception_yds_alternate" "yds" = true := rfl
  norm_num [checkVals, overCushion, hy]

theorem qualLine_doe :
    qualLine doeStats doeProp = some (mkQualRow doeProp [-11, -11]) := by
  rw [qualLine_some (show market_to_stat doeProp.market = some "receiving_yards" from rfl)]
  dsimp only [doeProp]
  rw [qualifies_doe]
  simp

theorem runEngine_doe :
    runEngine doeEvs doeStats = [mkQualRow doeProp [-11, -11]] := by
  unfold runEngine buildQualifying
  rw [collect_doe]
  simp only [List.filterMap_cons, List.filterMap_nil, qualLine_doe]
  simp [dropDupAux]

theorem qualifies_c1 : qualifies_strong wilsonStats "Garrett Wilson"
    "receiving_yards" (111/2) "Over" "player_reception_yds_alternate" =
    (false, [80, 95, 60, 110]) := by
  unfold qualifies_strong
  rw [if_neg (by decide : ¬(playerGames wilsonStats "Garrett Wilson" = [] ∨
      ((playerGames wilsonStats "Garrett Wilson").length : ℤ) < currentWeek wilsonStats - 1))]
  rw [show (playerGames wilsonStats "Garrett Wilson").map (fun r => statOf r "receiving_yards")
      = [80, 95, 60, 110] from by decide]
  have hy : strContains "player_reception_yds_alternate" "yds" = true := rfl
  norm_num [checkVals, overCushion, hy]

/-- C1 (counterexample): Garrett Wilson resolves, has exactly 4 recorded
2025 weeks, and every one of his 4 weekly receiving-yard values (80, 95,
60, 110) is strictly greater than the threshold 55.5, yet the evaluator
returns `qualifies = false` for `Over 55.5` receiving yards — the code
requires each value to beat 1.2 × 55.5 = 66.6 and week 3's 60 does not.
So qualification is not equivalent to all values beating the threshold. -/
theorem C1_counterexample :
    (playerGames wilsonStats "Garrett Wilson").length = 4
    ∧ (∀ v ∈ (playerGames wilsonStats "Garrett Wilson").map
        (fun r => statOf r "receiving_yards"), (111 : ℚ)/2 < v)
    ∧ (qualifies_strong wilsonStats "Garrett Wilson" "receiving_yards" (111/2)
        "Over" "player_reception_yds_alternate").1 = false := by
  refine ⟨by decide, ?_, by rw [qualifies_c1]⟩
  rw [show (playerGames wilsonStats "Garrett Wilson").map (fun r => statOf r "receiving_yards")
      = [80, 95, 60, 110] from by decide]
  norm_num

/-- C1 (amended): for an Over line whose player has a nonempty filtered
history of at least `currentWeek - 1` rows, the evaluator accepts iff
every matched weekly value (all matched rows, not the 4 most recent)
passes the cushioned test `overCushion`: strictly above 1.2 × threshold
for yards markets, 1.3 × threshold for attempts/receptions markets, and
strictly above the bare threshold otherwise. -/
theorem C1_amended_over_cushion (ws : List WeeklyRow) (player c : String)
    (line : ℚ) (m : String)
    (h1 : playerGames ws player ≠ [])
    (h2 : currentWeek ws - 1 ≤ ((playerGames ws player).length : ℤ)) :
    (qualifies_strong ws player c line "Over" m).1 = true ↔
      ∀ v ∈ (playerGames ws player).map (fun r => statOf r c),
        overCushion m line v = true := by
  unfold qualifies_strong
  rw [if_neg (by push_neg; exact ⟨h1, h2⟩)]
  unfold checkVals
  rw [List.all_eq_true]
  simp

/-- C1 (witness): the amended equivalence instantiated at the concrete
Garrett Wilson history and the line `Over 20.5` receiving yards. -/
theorem C1_witness :
    (qualifies_strong wilsonStats "Garrett Wilson" "receiving_yards" (41/2)
        "Over" "player_reception_yds_alternate").1 = true ↔
      ∀ v ∈ (playerGames wilsonStats "Garrett Wilson").map
        (fun r => statOf r "receiving_yards"),
        overCushion "player_reception_yds_alternate" (41/2) v = true :=
  C1_amended_over_cushion wilsonStats "Garrett Wilson" "receiving_yards" (41/2)
    "player_reception_yds_alternate" (by decide) (by decide)

theorem qualifies_c2 : qualifies_strong wilsonStats "Garrett Wilson"
    "receptions" (21/2) "Under" "player_receptions_alternate" =
    (false, [6, 7, 5, 8]) := by
  unfold qualifies_strong
  rw [if_neg (by decide : ¬(playerGames wilsonStats "Garrett Wilson" = [] ∨
      ((playerGames wilsonStats "Garrett Wilson").length : ℤ) < currentWeek wilsonStats - 1))]
  rw [show (playerGames wilsonStats "Garrett Wilson").map (fun r => statOf r "receptions")
      = [6, 7, 5, 8] from by decide]
  have hne : ("Under" : String) ≠ "Over" := by decide
  norm_num [checkVals, hne]

/-- C2 (counterexample): Garrett Wilson resolves with 4 recorded weeks of
receptions 6, 7, 5, 8, each strictly below the threshold 10.5, yet the
evaluator returns `qualifies = false` for `Under 10.5` receptions — the
code rejects every `Under` line unconditionally.  So qualification for
Under lines is not equivalent to all values sitting below the
threshold. -/
theorem C2_counterexample :
    (playerGames wilsonStats "Garrett Wilson").length = 4
    ∧ (∀ v ∈ (playerGames wilsonStats "Garrett Wilson").map
        (fun r => statOf r "receptions"), v < (21 : ℚ)/2)
    ∧ (qualifies_strong wilsonStats "Garrett Wilson" "receptions" (21/2)
        "Under" "player_receptions_alternate").1 = false := by
  refine ⟨by decide, ?_, by rw [qualifies_c2]⟩
  rw [show (playerGames wilsonStats "Garrett Wilson").map (fun r => statOf r "receptions")
      = [6, 7, 5, 8] from by decide]
  norm_num

/-- C2 (amended): the evaluator returns `qualifies = false` for every side
other than `"Over"` — in particular for every `Under` line — regardless of
threshold, history or stat category. -/
theorem C2_amended_under_never (ws : List WeeklyRow) (player c : String)
    (line : ℚ) (side m : String) (h : side ≠ "Over") :
    (qualifies_strong ws player c line side m).1 = false := by
  unfold qualifies_strong
  split
  · rfl
  next hgate =>
    push_neg at hgate
    obtain ⟨hne, _⟩ := hgate
    unfold checkVals
    rw [List.all_eq_false]
    obtain ⟨r, hr⟩ := List.exists_mem_of_ne_nil _ hne
    exact ⟨statOf r c, List.mem_map_of_mem _ hr,
      by rw [if_neg h]; exact Bool.false_ne_true⟩

/-- C2 (witness): the amended rejection instantiated at the concrete
Garrett Wilson history and the line `Under 10.5` receptions. -/
theorem C2_witness :
    (qualifies_strong wilsonStats "Garrett Wilson" "receptions" (21/2)
        "Under" "player_receptions_alternate").1 = false :=
  C2_amended_under_never wilsonStats "Garrett Wilson" "receptions" (21/2)
    "Under" "player_receptions_alternate" (by decide)

theorem qualifies_c3 : qualifies_strong mahomesStats "Patrick Mahomes"
    "passing_tds" (3/2) "Over" "player_pass_tds_alternate" =
    (true, [3, 3, 3]) := by
  unfold qualifies_strong
  rw [if_neg (by decide : ¬(playerGames mahomesStats "Patrick Mahomes" = [] ∨
      ((playerGames mahomesStats "Patrick Mahomes").length : ℤ) < currentWeek mahomesStats - 1))]
  rw [show (playerGames mahomesStats "Patrick Mahomes").map (fun r => statOf r "passing_tds")
      = [3, 3, 3] from by decide]
  have h1 : strContains "player_pass_tds_alternate" "yds" = false := rfl
  have h2 : strContains "player_pass_tds_alternate" "attempts" = false := rfl
  have h3 : strContains "player_pass_tds_alternate" "receptions" = false := rfl
  norm_num [checkVals, overCushion, h1, h2, h3]

/-- C3 (counterexample): Patrick Mahomes has only 3 recorded game-weeks,
yet the evaluator accepts `Over 1.5` passing touchdowns — the code's gate
demands `current_week - 1 = 2` rows, not 4, so a 3-week player can
qualify, refuting "fewer than 4 recorded game-weeks never qualifies". -/
theorem C3_counterexample :
    (playerGames mahomesStats "Patrick Mahomes").length = 3
    ∧ (qualifies_strong mahomesStats "Patrick Mahomes" "passing_tds" (3/2)
        "Over" "player_pass_tds_alternate").1 = true := by
  exact ⟨by decide, by rw [qualifies_c3]⟩

/-- C3 (amended): the history gate compares against `currentWeek - 1`
(the table's maximum week minus one), not 4: fewer matched rows than that
(or none) yields `(false, [])` regardless of threshold, direction and
category, and otherwise the evaluator evaluates all matched rows' values,
not the 4 most recent. -/
theorem C3_amended_history_gate :
    (∀ (ws : List WeeklyRow) (player c : String) (line : ℚ) (side m : String),
      ((playerGames ws player).length : ℤ) < currentWeek ws - 1 →
      qualifies_strong ws player c line side m = (false, []))
    ∧ (∀ (ws : List WeeklyRow) (player c : String) (line : ℚ) (side m : String),
      playerGames ws player ≠ [] →
      currentWeek ws - 1 ≤ ((playerGames ws player).length : ℤ) →
      (qualifies_strong ws player c line side m).2 =
        (playerGames ws player).map (fun r => statOf r c)) := by
  constructor
  · intro ws player c line side m h
    unfold qualifies_strong
    rw [if_pos (Or.inr h)]
  · intro ws player c line side m h1 h2
    unfold qualifies_strong
    rw [if_neg (by push_neg; exact ⟨h1, h2⟩)]

/-- C3 (witness): the amended gate instantiated concretely: Patrick
Mahomes has no row in Garrett Wilson's table (0 matched rows, fewer than
`currentWeek - 1 = 3`), so the evaluator returns `(false, [])`. -/
theorem C3_witness :
    qualifies_strong wilsonStats "Patrick Mahomes" "passing_tds" (3/2) "Over"
      "player_pass_tds_alternate" = (false, []) :=
  C3_amended_history_gate.1 wilsonStats "Patrick Mahomes" "passing_tds" (3/2)
    "Over" "player_pass_tds_alternate" (by decide)

/-- C4 (counterexample): on the John Doe scenario the engine publishes one
Over prop with threshold -10 whose stored supporting value -11 is NOT
strictly greater than the threshold: the cushioned test `-11 > 1.2 × (-10)
= -12` passes although `-11 > -10` fails, so the published-output
invariant "every supporting value beats the threshold" is violated for a
negative threshold. -/
theorem C4_counterexample :
    runEngine doeEvs doeStats = [mkQualRow doeProp [-11, -11]]
    ∧ (mkQualRow doeProp [-11, -11]).side = "Over"
    ∧ (-11 : ℚ) ∈ (mkQualRow doeProp [-11, -11]).weekly_values
    ∧ ¬((mkQualRow doeProp [-11, -11]).line < -11) := by
  refine ⟨runEngine_doe, rfl, by simp [mkQualRow], ?_⟩
  show ¬((-10 : ℚ) < -11)
  norm_num

/-- C4 (amended): every published row is an Over row, and every stored
supporting value strictly exceeds the cushioned threshold — the row's
threshold times the cushion factor its (title-cased) market carries
(1.2 for yards markets, 1.3 for attempts/receptions, 1 otherwise); when
the threshold is nonnegative this implies the strict direction test
value > threshold of the original claim. -/
theorem C4_amended_cushioned (evs : List EventOdds) (ws : List WeeklyRow)
    (q : QualRow) (hq : q ∈ runEngine evs ws) :
    q.side = "Over" ∧
      ∀ v ∈ q.weekly_values,
        q.line * cushionOfTitled q.market < v ∧ (0 ≤ q.line → q.line < v) := by
  obtain ⟨p, hp, c, hms, hqual, hrow⟩ := mem_runEngine hq
  obtain ⟨hne, hside, hsnd, hall⟩ := qualifies_fst_true hqual
  subst hrow
  dsimp only [mkQualRow]
  refine ⟨hside, ?_⟩
  intro v hv
  rw [hsnd] at hv
  have hov := hall v hv
  rw [overCushion_eq] at hov
  have hlt : p.line * cushionOfRaw p.market < v := of_decide_eq_true hov
  have hcu : cushionOfTitled (pyTitle (replaceUnderscores p.market)) = cushionOfRaw p.market :=
    cushion_titled_eq_raw hms
  constructor
  · rw [hcu]; exact hlt
  · intro h0
    have h1 : (1 : ℚ) ≤ cushionOfRaw p.market := one_le_cushionOfRaw _
    calc p.line = p.line * 1 := (mul_one _).symm
    _ ≤ p.line * cushionOfRaw p.market := by
        exact mul_le_mul_of_nonneg_left h1 h0
    _ < v := hlt

/-- C4 (witness): the amended invariant instantiated at the John Doe
scenario's published row. -/
theorem C4_witness :
    (mkQualRow doeProp [-11, -11]).side = "Over" ∧
      ∀ v ∈ (mkQualRow doeProp [-11, -11]).weekly_values,
        (mkQualRow doeProp [-11, -11]).line *
            cushionOfTitled (mkQualRow doeProp [-11, -11]).market < v ∧
          (0 ≤ (mkQualRow doeProp [-11, -11]).line →
            (mkQualRow doeProp [-11, -11]).line < v) :=
  C4_amended_cushioned doeEvs doeStats (mkQualRow doeProp [-11, -11])
    (by rw [runEngine_doe]; exact List.mem_singleton_self _)

/-- C5: every published row's reported season average equals the
arithmetic mean of its stored supporting values rounded to one decimal
place (ties to even, as Python's `round`), and in particular the
supporting values [80, 95, 60, 110] round to 86.2. -/
theorem C5_season_average :
    (∀ (evs : List EventOdds) (ws : List WeeklyRow) (q : QualRow),
      q ∈ runEngine evs ws →
      q.weekly_values ≠ [] ∧
        q.season_avg = pyRound1 (q.weekly_values.sum / (q.weekly_values.length : ℚ)))
    ∧ pyRound1 (([80, 95, 60, 110] : List ℚ).sum /
        (([80, 95, 60, 110] : List ℚ).length : ℚ)) = 431/5 := by
  constructor
  · intro evs ws q hq
    obtain ⟨p, hp, c, hms, hqual, hrow⟩ := mem_runEngine hq
    obtain ⟨hne, hside, hsnd, hall⟩ := qualifies_fst_true hqual
    subst hrow
    dsimp only [mkQualRow]
    have hvne : (qualifies_strong ws p.player c p.line p.side p.market).2 ≠ [] := by
      rw [hsnd]
      simp [hne]
    refine ⟨hvne, ?_⟩
    rw [if_neg (by simp [hvne])]
  · norm_num [pyRound1, pyRoundHalfEven]

/-- C5 (witness): the season-average law instantiated at the published
row of the two-bookmaker Garrett Wilson scenario. -/
theorem C5_witness :
    (mkQualRow (c6prop (-180)) [80, 95, 60, 110]).weekly_values ≠ [] ∧
      (mkQualRow (c6prop (-180)) [80, 95, 60, 110]).season_avg =
        pyRound1 ((mkQualRow (c6prop (-180)) [80, 95, 60, 110]).weekly_values.sum /
          ((mkQualRow (c6prop (-180)) [80, 95, 60, 110]).weekly_values.length : ℚ)) :=
  C5_season_average.1 c6evs wilsonStats _
    (by rw [runEngine_c6]; exact List.mem_singleton_self _)

theorem buildQ_c6 : buildQualifying wilsonStats (collectProps c6evs) =
    [mkQualRow (c6prop (-180)) [80, 95, 60, 110],
     mkQualRow (c6prop (-165)) [80, 95, 60, 110]] := by
  rw [collect_c6]
  unfold buildQualifying
  simp only [List.filterMap_cons, List.filterMap_nil, qualLine_c6]

/-- C6 (counterexample): two bookmakers quote the identical line at -180
and -165, but the published output holds a single row carrying only the
first price -180 — there is no two-quote list ordered [-165, -180], and
the better price -165 is discarded, refuting the claimed quote merging
and best-price-first ordering. -/
theorem C6_counterexample :
    (runEngine c6evs wilsonStats).length = 1
    ∧ (runEngine c6evs wilsonStats).map (fun q => q.odds) = [-180] := by
  rw [runEngine_c6]
  exact ⟨rfl, rfl⟩

/-- C6 (amended): deduplication keeps one row per distinct
(player, market, threshold, direction) key — the matchup label is not
part of the key and no quote list is built: the output is a sublist of
the qualifying rows (so each row keeps the single price it was created
with, the first occurrence of its key), no two output rows share a key,
and every qualifying row's key is represented. -/
theorem C6_amended_dedup (evs : List EventOdds) (ws : List WeeklyRow) :
    (runEngine evs ws).Pairwise (fun a b => dedupKey a ≠ dedupKey b)
    ∧ (runEngine evs ws).Sublist (buildQualifying ws (collectProps evs))
    ∧ ∀ q ∈ buildQualifying ws (collectProps evs),
        ∃ q2 ∈ runEngine evs ws, dedupKey q2 = dedupKey q := by
  refine ⟨dropDupAux_pairwise [] _, dropDupAux_sublist [] _, ?_⟩
  intro q hq
  rcases dropDupAux_covers [] _ q hq with hin | h
  · simp at hin
  · exact h

/-- C6 (witness): the amended coverage applied to the dropped -165 row of
the two-bookmaker scenario: some published row carries its key. -/
theorem C6_witness :
    ∃ q2 ∈ runEngine c6evs wilsonStats,
      dedupKey q2 = dedupKey (mkQualRow (c6prop (-165)) [80, 95, 60, 110]) :=
  (C6_amended_dedup c6evs wilsonStats).2.2 _
    (by rw [buildQ_c6]; exact List.mem_cons_of_mem _ (List.mem_singleton_self _))

/-- C7 (counterexample): for the display name "Garrett Wilson" and the
canonical set containing only "D.Wilson", the spec's five-pattern matcher
finds no match, but the source's substring resolution matches "D.Wilson"
(its name contains the last token "Wilson"), and the corresponding stats
row passes the `player_games` filter.  The code therefore does not
implement the claimed five-pattern, first-success matcher. -/
theorem C7_counterexample :
    specFiveRuleMatch "Garrett Wilson" ["D.Wilson"] = none
    ∧ codeFirstMatch "Garrett Wilson" ["D.Wilson"] = some "D.Wilson"
    ∧ playerGames dWilsonStats "Garrett Wilson" ≠ [] := by
  exact ⟨by decide, by decide, by decide⟩

/-- C7 (amended): the source resolves names by one test only:
case-insensitive containment of the display name's last whitespace token
in a canonical identity.  "Garrett Wilson" still matches "G.Wilson" that
way, and when no stats row matches, qualification fails as a normal
negative outcome `(false, [])` rather than an error. -/
theorem C7_amended_substring :
    nameMatches "Garrett Wilson" "G.Wilson" = true
    ∧ ∀ (ws : List WeeklyRow) (display : String),
        (∀ r ∈ ws, nameMatches display r.player = false) →
        ∀ (c : String) (line : ℚ) (side m : String),
          qualifies_strong ws display c line side m = (false, []) := by
  constructor
  · rfl
  · intro ws display hnm c line side m
    have hpg : playerGames ws display = [] := by
      unfold playerGames
      rw [List.filter_eq_nil_iff]
      intro r hr
      simp [hnm r hr]
    unfold qualifies_strong
    rw [if_pos (Or.inl hpg)]

/-- C7 (witness): the amended no-match behaviour instantiated at a
display name matching no row of Garrett Wilson's stats table. -/
theorem C7_witness :
    qualifies_strong wilsonStats "Zach Zebra" "receptions" (21/2) "Over"
      "player_receptions_alternate" = (false, []) :=
  C7_amended_substring.2 wilsonStats "Zach Zebra" (by decide) "receptions" (21/2)
    "Over" "player_receptions_alternate"

/-- C8 (counterexample): a failing run over a snapshot holding the
previous run's props leaves those stale props in place next to the fresh
error string: the published result mixes a populated non-null error with
a non-empty props list, refuting "empty props list on failure" and
"never a mix of stale props and fresh error". -/
theorem C8_counterexample :
    (fetchUpdate prevSnapshot (RunOutcome.failure "upstream fetch failed") 1).error
        = some "upstream fetch failed"
    ∧ (fetchUpdate prevSnapshot (RunOutcome.failure "upstream fetch failed") 1).props
        = [staleRow]
    ∧ [staleRow] ≠ ([] : List QualRow)
    ∧ (fetchUpdate prevSnapshot
        (RunOutcome.failure "upstream fetch failed") 1).last_updated = 1 := by
  refine ⟨rfl, rfl, by simp, rfl⟩

/-- C8 (amended): on a whole-run failure the published snapshot carries
the populated error string and the updated timestamp, but its props list
(and everything else) is left exactly as the previous snapshot had it, so
stale props from the previous run survive next to the fresh error. -/
theorem C8_amended_failure_keeps_props (prev : PublishedState) (msg : String)
    (now : ℤ) :
    (fetchUpdate prev (RunOutcome.failure msg) now).error = some msg
    ∧ (fetchUpdate prev (RunOutcome.failure msg) now).last_updated = now
    ∧ (fetchUpdate prev (RunOutcome.failure msg) now).props = prev.props :=
  ⟨rfl, rfl, rfl⟩

/-- C9: the engine is deterministic: equal display names and canonical
sets give equal match results, equal inputs give equal published rows,
and the rows of a successful update do not depend on the timestamp or on
the previous snapshot. -/
theorem C9_deterministic :
    (∀ (d d' : String) (canon canon' : List String), d = d' → canon = canon' →
      codeFirstMatch d canon = codeFirstMatch d' canon')
    ∧ (∀ (evs evs' : List EventOdds) (ws ws' : List WeeklyRow),
        evs = evs' → ws = ws' → runEngine evs ws = runEngine evs' ws')
    ∧ (∀ (prev prev' : PublishedState) (evs : List EventOdds)
        (ws : List WeeklyRow) (n n' : ℤ),
        (fetchUpdate prev (RunOutcome.ok evs ws) n).props =
          (fetchUpdate prev' (RunOutcome.ok evs ws) n').props) := by
  refine ⟨?_, ?_, ?_⟩
  · intro d d' canon canon' h1 h2
    rw [h1, h2]
  · intro evs evs' ws ws' h1 h2
    rw [h1, h2]
  · intro prev prev' evs ws n n'
    rfl

/-- C9 (witness): determinism instantiated at the Garrett Wilson name
resolution and the two-bookmaker engine run. -/
theorem C9_witness :
    codeFirstMatch "Garrett Wilson" ["G.Wilson"]
        = codeFirstMatch "Garrett Wilson" ["G.Wilson"]
    ∧ runEngine c6evs wilsonStats = runEngine c6evs wilsonStats :=
  ⟨C9_deterministic.1 "Garrett Wilson" "Garrett Wilson" ["G.Wilson"] ["G.Wilson"]
      rfl rfl,
    C9_deterministic.2.1 c6evs c6evs wilsonStats wilsonStats rfl rfl⟩

/-- C10: a candidate line survives collection only when its price is
present and lies in the inclusive band [-600, -150], and consequently
every published row's odds value lies in that band. -/
theorem C10_odds_band :
    (∀ (evs : List EventOdds) (p : PropEntry), p ∈ collectProps evs →
      -600 ≤ p.odds ∧ p.odds ≤ -150)
    ∧ (∀ (evs : List EventOdds) (ws : List WeeklyRow) (q : QualRow),
        q ∈ runEngine evs ws → -600 ≤ q.odds ∧ q.odds ≤ -150) := by
  constructor
  · intro evs p hp
    exact mem_collectProps_odds hp
  · intro evs ws q hq
    obtain ⟨p, hp, c, hms, hqual, hrow⟩ := mem_runEngine hq
    subst hrow
    exact mem_collectProps_odds hp

/-- C10 (witness): the odds band instantiated at the published row of the
two-bookmaker scenario, whose odds are -180. -/
theorem C10_witness :
    -600 ≤ (mkQualRow (c6prop (-180)) [80, 95, 60, 110]).odds
    ∧ (mkQualRow (c6prop (-180)) [80, 95, 60, 110]).odds ≤ -150 :=
  C10_odds_band.2 c6evs wilsonStats _
    (by rw [runEngine_c6]; exact List.mem_singleton_self _)
